import Mathlib

/-!
Shallow embedding of the Version and Build-Number Decision Engine of the
asc-next-version repository.

The embedding follows the newest snapshot of each component in the source
tree:

* `SemanticVersion` and its parser mirror
  src/domain/valueObjects/version.ts (class SemanticVersion).
* `BuildNumber` mirrors src/domain/valueObjects/buildNumber.ts.
* `AppStoreVersion` mirrors the newest AppStoreVersion entity
  (src/domain/entities/app.js, second document: the TypeScript entity with
  canIncrementBuildNumber / isLiveVersion / calculateNextBuildNumber).
* `VersionCalculationService` mirrors the newest calculator snapshot
  (src/unnamed/part_009, class VersionCalculationService).
* `AppVersionService` mirrors src/domain/services/appVersionService.ts.
* `getMaxBuildNumber` mirrors src/services/appStoreService.ts.

JavaScript numbers appearing as build counters are modelled as `Option Int`
(`none` standing for NaN, produced by parseInt on a non-numeric string);
version components are modelled as `Nat` (the source validates them to be
non-negative integers).  Backend calls are modelled as explicit environment
functions returning `Except`; a thrown error is the `.error` case.
-/

/-- Character for a decimal digit, as produced by JavaScript number
formatting: code point 48 + d. -/
def digitChar (d : Nat) : Char := Char.ofNat (48 + d)

/-- Numeric value of a list of decimal digit characters read left to right,
as computed by parseInt on an all-digit string. -/
def digitsToNat (cs : List Char) : Nat :=
  cs.foldl (fun a c => 10 * a + (c.toNat - 48)) 0

/-- Fuel-driven decimal rendering of a positive natural number (most
significant digit first).  The fuel only serves structural recursion; any
fuel at least the number itself is enough. -/
def natToCharsAux : Nat → Nat → List Char
  | 0, _ => []
  | _ + 1, 0 => []
  | fuel + 1, n + 1 => natToCharsAux fuel ((n + 1) / 10) ++ [digitChar ((n + 1) % 10)]

/-- Decimal rendering of a natural number, as produced by JavaScript string
interpolation of a non-negative integer. -/
def natToChars (n : Nat) : List Char :=
  if n = 0 then ['0'] else natToCharsAux (n + 1) n

/-- Leading- and trailing-whitespace removal, modelling String.prototype.trim. -/
def jsTrim (cs : List Char) : List Char :=
  ((cs.dropWhile Char.isWhitespace).reverse.dropWhile Char.isWhitespace).reverse

/-- Split a character list at every dot, modelling String.prototype.split
with separator dot: splitOnDot of "a.b" is [a, b], and a leading, trailing
or doubled dot yields an empty group. -/
def splitOnDot : List Char → List (List Char)
  | [] => [[]]
  | c :: cs =>
    if c = '.' then [] :: splitOnDot cs
    else
      match splitOnDot cs with
      | [] => [[c]]
      | g :: gs => (c :: g) :: gs

/-- Modelled from the spec: the SEMANTIC_VERSION_PATTERN constant of the
shared constants module is absent from the source tree (only its importer
src/domain/valueObjects/version.ts is present); the spec fixes it as the
regular expression matching three dot-separated non-empty digit groups.
This is also the VERSION_REGEX of the older constants snapshot in the tree. -/
def semanticVersionPatternTest (cs : List Char) : Bool :=
  match splitOnDot cs with
  | [a, b, c] =>
    !a.isEmpty && !b.isEmpty && !c.isEmpty &&
      a.all Char.isDigit && b.all Char.isDigit && c.all Char.isDigit
  | _ => false

/-- Error codes of src/shared/errors/customErrors.ts (APPLICATION_ERROR_CODES). -/
inductive ApplicationErrorCode where
  | VALIDATION_ERROR
  | API_ERROR
  | LIVE_VERSION_NOT_FOUND
  | INCONSISTENT_DATA_STATE
  | VERSION_INCREMENT_NOT_ALLOWED
  | AUTHENTICATION_FAILED
deriving DecidableEq, Repr

/-- ApplicationError of src/shared/errors/customErrors.ts.  The details
payload is reduced to the machine-readable reason string set by
createBusinessLogicError; the field/value details of validation errors are
not needed by any claim and are elided. -/
structure ApplicationError where
  message : String
  code : ApplicationErrorCode
  reason : Option String
deriving DecidableEq, Repr

/-- createValidationError of customErrors.ts (details elided, see
ApplicationError). -/
def createValidationError (message : String) : ApplicationError :=
  { message := message, code := ApplicationErrorCode.VALIDATION_ERROR, reason := none }

/-- createBusinessLogicError of customErrors.ts: carries a code and an
optional machine-readable reason. -/
def createBusinessLogicError (message : String) (code : ApplicationErrorCode)
    (reason : Option String) : ApplicationError :=
  { message := message, code := code, reason := reason }

/-- Semantic version value object of src/domain/valueObjects/version.ts:
three non-negative components.  The class also stores the normalized
string, which is determined by the components and is produced here by
SemanticVersion.toString. -/
structure SemanticVersion where
  major : Nat
  minor : Nat
  patch : Nat
deriving DecidableEq, Repr

/-- The normalized rendering used by the class for _normalized:
major dot minor dot patch via JavaScript template interpolation. -/
def SemanticVersion.versionStringOf (a b c : Nat) : String :=
  String.mk (natToChars a ++ ('.' :: natToChars b) ++ ('.' :: natToChars c))

/-- toString of SemanticVersion: returns the normalized string. -/
def SemanticVersion.toString (v : SemanticVersion) : String :=
  SemanticVersion.versionStringOf v.major v.minor v.patch

/-- The SemanticVersion constructor and its _parse helper: reject an empty
input, trim, test the pattern, split on dots and read the three components
with parseInt (on an all-digit group parseInt is exactly digitsToNat; the
subsequent negativity check of the source can never fire for digit groups
and is omitted on Nat).  Error messages keep the constant part of the
source texts. -/
def SemanticVersion.parse (versionString : String) : Except ApplicationError SemanticVersion :=
  if versionString.data.isEmpty then
    Except.error (createValidationError ("Version must be a non-empty string"))
  else
    let trimmed := jsTrim versionString.data
    if semanticVersionPatternTest trimmed then
      match splitOnDot trimmed with
      | [majorStr, minorStr, patchStr] =>
        Except.ok
          { major := digitsToNat majorStr
            minor := digitsToNat minorStr
            patch := digitsToNat patchStr }
      | _ =>
        Except.error (createValidationError ("Version must be in format X.Y.Z (e.g., 1.0.0)"))
    else
      Except.error (createValidationError ("Version must be in format X.Y.Z (e.g., 1.0.0)"))

/-- incrementPatch of version.ts: builds the dotted string with patch + 1
and re-parses it through the constructor. -/
def SemanticVersion.incrementPatch (v : SemanticVersion) : Except ApplicationError SemanticVersion :=
  SemanticVersion.parse (SemanticVersion.versionStringOf v.major v.minor (v.patch + 1))

/-- incrementMinor of version.ts: minor + 1, patch reset to 0, re-parsed. -/
def SemanticVersion.incrementMinor (v : SemanticVersion) : Except ApplicationError SemanticVersion :=
  SemanticVersion.parse (SemanticVersion.versionStringOf v.major (v.minor + 1) 0)

/-- incrementMajor of version.ts: major + 1, minor and patch reset to 0,
re-parsed. -/
def SemanticVersion.incrementMajor (v : SemanticVersion) : Except ApplicationError SemanticVersion :=
  SemanticVersion.parse (SemanticVersion.versionStringOf (v.major + 1) 0 0)

/-- compareTo of version.ts: signed difference of the first differing
component (major, then minor, then patch), as JavaScript number
subtraction on the integer components. -/
def SemanticVersion.compareTo (v other : SemanticVersion) : Int :=
  if (v.major : Int) - (other.major : Int) ≠ 0 then (v.major : Int) - (other.major : Int)
  else if (v.minor : Int) - (other.minor : Int) ≠ 0 then (v.minor : Int) - (other.minor : Int)
  else (v.patch : Int) - (other.patch : Int)

/-- isGreaterThan of version.ts: compareTo strictly positive. -/
def SemanticVersion.isGreaterThan (v other : SemanticVersion) : Bool :=
  decide (0 < v.compareTo other)

/-- Build number value object of src/domain/valueObjects/buildNumber.ts:
a validated non-negative integer. -/
structure BuildNumber where
  value : Nat
deriving DecidableEq, Repr

/-- getValue of buildNumber.ts. -/
def BuildNumber.getValue (b : BuildNumber) : Nat := b.value

/-- increment of buildNumber.ts: a new build number with value + 1. -/
def BuildNumber.increment (b : BuildNumber) : BuildNumber := { value := b.value + 1 }

/-- compareTo of buildNumber.ts: signed difference of the values. -/
def BuildNumber.compareTo (b other : BuildNumber) : Int :=
  (b.value : Int) - (other.value : Int)

/-- isGreaterThan of buildNumber.ts: compareTo strictly positive. -/
def BuildNumber.isGreaterThan (b other : BuildNumber) : Bool :=
  decide (0 < b.compareTo other)

/-- App Store lifecycle states.  The union of the APP_STORE_STATES constants
referenced by the newest snapshots (part_009 state descriptions, entity
tests) and enumerated in the spec. -/
inductive AppStoreState where
  | READY_FOR_SALE
  | PREPARE_FOR_SUBMISSION
  | WAITING_FOR_REVIEW
  | IN_REVIEW
  | REJECTED
  | DEVELOPER_REJECTED
  | METADATA_REJECTED
  | PENDING_CONTRACT
  | WAITING_FOR_EXPORT_COMPLIANCE
  | PROCESSING_FOR_APP_STORE
  | ACCEPTED
  | REPLACED_WITH_NEW_VERSION
  | REMOVED_FROM_SALE
  | NOT_APPLICABLE_FOR_REVIEW
  | INVALID_BINARY
  | PENDING_DEVELOPER_RELEASE
  | DEVELOPER_REMOVED_FROM_SALE
deriving DecidableEq, Repr

/-- The string value of each APP_STORE_STATES constant (each key maps to the
identically-spelled string, as in the constants snapshots in the tree). -/
def AppStoreState.stateString : AppStoreState → String
  | AppStoreState.READY_FOR_SALE => "READY_FOR_SALE"
  | AppStoreState.PREPARE_FOR_SUBMISSION => "PREPARE_FOR_SUBMISSION"
  | AppStoreState.WAITING_FOR_REVIEW => "WAITING_FOR_REVIEW"
  | AppStoreState.IN_REVIEW => "IN_REVIEW"
  | AppStoreState.REJECTED => "REJECTED"
  | AppStoreState.DEVELOPER_REJECTED => "DEVELOPER_REJECTED"
  | AppStoreState.METADATA_REJECTED => "METADATA_REJECTED"
  | AppStoreState.PENDING_CONTRACT => "PENDING_CONTRACT"
  | AppStoreState.WAITING_FOR_EXPORT_COMPLIANCE => "WAITING_FOR_EXPORT_COMPLIANCE"
  | AppStoreState.PROCESSING_FOR_APP_STORE => "PROCESSING_FOR_APP_STORE"
  | AppStoreState.ACCEPTED => "ACCEPTED"
  | AppStoreState.REPLACED_WITH_NEW_VERSION => "REPLACED_WITH_NEW_VERSION"
  | AppStoreState.REMOVED_FROM_SALE => "REMOVED_FROM_SALE"
  | AppStoreState.NOT_APPLICABLE_FOR_REVIEW => "NOT_APPLICABLE_FOR_REVIEW"
  | AppStoreState.INVALID_BINARY => "INVALID_BINARY"
  | AppStoreState.PENDING_DEVELOPER_RELEASE => "PENDING_DEVELOPER_RELEASE"
  | AppStoreState.DEVELOPER_REMOVED_FROM_SALE => "DEVELOPER_REMOVED_FROM_SALE"

/-- Modelled from the spec: the BUILD_NUMBER_INCREMENTABLE_STATES constant of
the shared constants module is absent from the source tree (only its
importer, the AppStoreVersion entity, and the entity unit test are
present).  The membership list is fixed by the spec partition
(ready-for-sale and the other terminal states blocking) together with the
entity unit test, which asserts canIncrementBuild true exactly for these
nine states. -/
def BUILD_NUMBER_INCREMENTABLE_STATES : List AppStoreState :=
  [AppStoreState.PREPARE_FOR_SUBMISSION,
   AppStoreState.REJECTED,
   AppStoreState.DEVELOPER_REJECTED,
   AppStoreState.METADATA_REJECTED,
   AppStoreState.WAITING_FOR_REVIEW,
   AppStoreState.IN_REVIEW,
   AppStoreState.INVALID_BINARY,
   AppStoreState.PENDING_DEVELOPER_RELEASE,
   AppStoreState.DEVELOPER_REMOVED_FROM_SALE]

/-- AppStoreVersion entity (newest snapshot, in src/domain/entities/app.js
second document): identifier, version, build counter, lifecycle state,
platform tag and creation timestamp.  Platform is kept as its string tag. -/
structure AppStoreVersion where
  id : String
  version : SemanticVersion
  buildNumber : BuildNumber
  state : AppStoreState
  platform : String
  createdDate : String
deriving DecidableEq, Repr

/-- canIncrementBuildNumber of the entity: state is a member of
BUILD_NUMBER_INCREMENTABLE_STATES. -/
def AppStoreVersion.canIncrementBuildNumber (v : AppStoreVersion) : Bool :=
  BUILD_NUMBER_INCREMENTABLE_STATES.contains v.state

/-- isLiveVersion of the entity: state is READY_FOR_SALE. -/
def AppStoreVersion.isLiveVersion (v : AppStoreVersion) : Bool :=
  decide (v.state = AppStoreState.READY_FOR_SALE)

/-- calculateNextBuildNumber of the entity: buildNumber.increment(). -/
def AppStoreVersion.calculateNextBuildNumber (v : AppStoreVersion) : BuildNumber :=
  v.buildNumber.increment

/-- Modelled from the spec: the VERSION_ACTION_TYPES constant of the shared
constants module is absent from the source tree; its two action keys used
by the newest calculator are CREATE_NEW_VERSION and INCREMENT_BUILD_NUMBER. -/
inductive VersionActionType where
  | CREATE_NEW_VERSION
  | INCREMENT_BUILD_NUMBER
deriving DecidableEq, Repr

/-- VersionActionResult of the newest calculator snapshot (part_009):
action, optional build number, and the creation flag. -/
structure VersionActionResult where
  action : VersionActionType
  buildNumber : Option BuildNumber
  requiresVersionCreation : Bool
deriving DecidableEq, Repr

/-- Increment mode of calculateNextSemanticVersion. -/
inductive VersionIncrementType where
  | patch
  | minor
  | major
deriving DecidableEq, Repr

/-- The stateDescriptions record of _createVersionStateError (part_009):
a remediation description per non-incrementable state.  Every state of the
enumeration has an entry, so the fallback string of the source is
unreachable for this state type. -/
def stateDescription : AppStoreState → String
  | AppStoreState.READY_FOR_SALE =>
    "This version is already live on the App Store. Create a new version."
  | AppStoreState.ACCEPTED =>
    "This version has been accepted and is waiting to be released. Release it first or create a new version."
  | AppStoreState.PROCESSING_FOR_APP_STORE =>
    "This version is being processed by Apple. Wait for completion or create a new version."
  | AppStoreState.PENDING_CONTRACT =>
    "This version requires contract agreement. Resolve in App Store Connect or create a new version."
  | AppStoreState.WAITING_FOR_EXPORT_COMPLIANCE =>
    "This version needs export compliance. Complete in App Store Connect or create a new version."
  | AppStoreState.REPLACED_WITH_NEW_VERSION =>
    "This version has been replaced. Use a higher version number."
  | AppStoreState.REMOVED_FROM_SALE =>
    "This version has been removed from sale. Create a new version."
  | AppStoreState.NOT_APPLICABLE_FOR_REVIEW =>
    "This version is not applicable for review. Create a new version."
  | AppStoreState.PREPARE_FOR_SUBMISSION =>
    "This version is being prepared for submission. Wait for submission or create a new version."
  | AppStoreState.WAITING_FOR_REVIEW =>
    "This version is waiting for review. Wait for review completion or create a new version."
  | AppStoreState.IN_REVIEW =>
    "This version is currently in review. Wait for review completion or create a new version."
  | AppStoreState.REJECTED =>
    "This version has been rejected. Address rejection issues or create a new version."
  | AppStoreState.PENDING_DEVELOPER_RELEASE =>
    "This version is pending developer release. Release it or create a new version."
  | AppStoreState.DEVELOPER_REJECTED =>
    "This version was rejected by the developer. Resubmit or create a new version."
  | AppStoreState.METADATA_REJECTED =>
    "This version has metadata issues. Fix metadata or create a new version."
  | AppStoreState.INVALID_BINARY =>
    "This version has an invalid binary. Upload a new binary or create a new version."
  | AppStoreState.DEVELOPER_REMOVED_FROM_SALE =>
    "This version was removed by the developer. Create a new version."

/-- _createVersionStateError of VersionCalculationService (part_009): a
business-logic error whose message names the version and the state
description, whose code is VERSION_INCREMENT_NOT_ALLOWED and whose reason
is the blocking state. -/
def VersionCalculationService._createVersionStateError (version : AppStoreVersion) : ApplicationError :=
  createBusinessLogicError
    ("Cannot add builds to version " ++ version.version.toString ++ ": " ++
      stateDescription version.state)
    ApplicationErrorCode.VERSION_INCREMENT_NOT_ALLOWED
    (some version.state.stateString)

/-- _calculateNextBuildNumber of VersionCalculationService (part_009): if the
version has no builds yet, the global maximum incremented; otherwise the
larger of the version's own next build and the global maximum incremented. -/
def VersionCalculationService._calculateNextBuildNumber (version : AppStoreVersion)
    (maxExistingBuildNumber : BuildNumber) : BuildNumber :=
  let versionHasBuilds := decide (0 < version.buildNumber.getValue)
  if versionHasBuilds = false then
    maxExistingBuildNumber.increment
  else
    let versionNextBuild := version.calculateNextBuildNumber
    let globalNextBuild := maxExistingBuildNumber.increment
    if versionNextBuild.isGreaterThan globalNextBuild then versionNextBuild else globalNextBuild

/-- determineVersionAction of VersionCalculationService (part_009): absent
target creates a new version, incrementable target increments the build
number, anything else is the deliberate state error (a thrown error is the
Except.error case). -/
def VersionCalculationService.determineVersionAction (targetVersion : Option AppStoreVersion)
    (maxExistingBuildNumber : BuildNumber) : Except ApplicationError VersionActionResult :=
  match targetVersion with
  | none =>
    Except.ok
      { action := VersionActionType.CREATE_NEW_VERSION
        buildNumber := some maxExistingBuildNumber.increment
        requiresVersionCreation := true }
  | some version =>
    if version.canIncrementBuildNumber then
      Except.ok
        { action := VersionActionType.INCREMENT_BUILD_NUMBER
          buildNumber := some (VersionCalculationService._calculateNextBuildNumber version maxExistingBuildNumber)
          requiresVersionCreation := false }
    else
      Except.error (VersionCalculationService._createVersionStateError version)

/-- calculateNextSemanticVersion of VersionCalculationService (part_009):
dispatch to the increment method for the given type.  The invalid-type
branch of the source is unreachable for this closed increment type. -/
def VersionCalculationService.calculateNextSemanticVersion (currentVersion : SemanticVersion)
    (incrementType : VersionIncrementType) : Except ApplicationError SemanticVersion :=
  match incrementType with
  | VersionIncrementType.patch => currentVersion.incrementPatch
  | VersionIncrementType.minor => currentVersion.incrementMinor
  | VersionIncrementType.major => currentVersion.incrementMajor

/-- isValidVersionProgression of VersionCalculationService (part_009):
the proposed version strictly exceeds the current one. -/
def VersionCalculationService.isValidVersionProgression (currentVersion proposedVersion : SemanticVersion) : Bool :=
  proposedVersion.isGreaterThan currentVersion

/-- Stable insertion of an element into a list under a boolean comparator:
the element goes in front of the first position where the comparator
allows it. -/
def insertSortedBy {α : Type} (le : α → α → Bool) (a : α) : List α → List α
  | [] => [a]
  | b :: l => if le a b then a :: b :: l else b :: insertSortedBy le a l

/-- Stable insertion sort under a boolean comparator.  JavaScript
Array.prototype.sort with a consistent comparator is specified only up to
a stable comparator-consistent reordering; this sort is one such. -/
def sortBy {α : Type} (le : α → α → Bool) : List α → List α
  | [] => []
  | a :: l => insertSortedBy le a (sortBy le l)

/-- The comparator used by fetchLiveVersion: sort descending by semantic
version, element a may precede element b when the JavaScript comparator
value versionB.compareTo(versionA) is not positive. -/
def versionDescLe (versionA versionB : AppStoreVersion) : Bool :=
  decide (versionB.version.compareTo versionA.version ≤ 0)

/-- _fetchVersionBuildNumber of appVersionService.ts: fetch the build
counter for the version's identifier from the backend; a READY_FOR_SALE
version with counter 0 is a data inconsistency and a hard error. -/
def AppVersionService._fetchVersionBuildNumber
    (fetchBuildNumberForVersion : String → Except ApplicationError BuildNumber)
    (version : AppStoreVersion) : Except ApplicationError BuildNumber :=
  match fetchBuildNumberForVersion version.id with
  | Except.error e => Except.error e
  | Except.ok buildNumber =>
    if version.state = AppStoreState.READY_FOR_SALE ∧ buildNumber.getValue = 0 then
      Except.error
        (createBusinessLogicError
          ("READY_FOR_SALE version " ++ version.version.toString ++
            " has no associated build. This indicates a data inconsistency in App Store Connect.")
          ApplicationErrorCode.INCONSISTENT_DATA_STATE none)
    else
      Except.ok buildNumber

/-- _createVersionWithBuildNumber of appVersionService.ts: a new
AppStoreVersion value with the same fields and the given build number
(the fetched record is not mutated). -/
def AppVersionService._createVersionWithBuildNumber (version : AppStoreVersion)
    (buildNumber : BuildNumber) : AppStoreVersion :=
  { id := version.id
    version := version.version
    buildNumber := buildNumber
    state := version.state
    platform := version.platform
    createdDate := version.createdDate }

/-- fetchLiveVersion of appVersionService.ts.  The backend response to
fetchAppStoreVersions (state READY_FOR_SALE, limit 10) is the versions
argument; fetchBuildNumberForVersion is the backend build lookup.  The
response is filtered to READY_FOR_SALE, sorted by semantic version
descending, and the first element is completed with its build counter. -/
def AppVersionService.fetchLiveVersion (versions : List AppStoreVersion)
    (fetchBuildNumberForVersion : String → Except ApplicationError BuildNumber) :
    Except ApplicationError AppStoreVersion :=
  if versions.isEmpty then
    Except.error
      (createBusinessLogicError
        ("No live version found for app. This action requires a published app.")
        ApplicationErrorCode.LIVE_VERSION_NOT_FOUND none)
  else
    let readyForSaleVersions :=
      versions.filter (fun version => decide (version.state = AppStoreState.READY_FOR_SALE))
    if readyForSaleVersions.isEmpty then
      Except.error
        (createBusinessLogicError
          ("No live version found for app. This action requires a published app.")
          ApplicationErrorCode.LIVE_VERSION_NOT_FOUND none)
    else
      let sortedVersions := sortBy versionDescLe readyForSaleVersions
      match sortedVersions.head? with
      | none =>
        Except.error
          (createBusinessLogicError ("No live version found after filtering")
            ApplicationErrorCode.LIVE_VERSION_NOT_FOUND none)
      | some liveVersion =>
        match AppVersionService._fetchVersionBuildNumber fetchBuildNumberForVersion liveVersion with
        | Except.error e => Except.error e
        | Except.ok buildNumber =>
          Except.ok (AppVersionService._createVersionWithBuildNumber liveVersion buildNumber)

/-- JavaScript parseInt with radix 10, restricted to what the resolver
needs: trim, optional sign, then the longest digit prefix; none models NaN
(no digits at all). -/
def jsParseInt (s : String) : Option Int :=
  let cs := jsTrim s.data
  match cs with
  | [] => none
  | c :: rest =>
    if c = '-' then
      (jsParseDigitPrefix rest).map (fun n => -(n : Int))
    else if c = '+' then
      (jsParseDigitPrefix rest).map (fun n => (n : Int))
    else
      (jsParseDigitPrefix cs).map (fun n => (n : Int))
where
  /-- Longest digit prefix value; none when the prefix is empty. -/
  jsParseDigitPrefix (cs : List Char) : Option Nat :=
    let ds := cs.takeWhile Char.isDigit
    if ds.isEmpty then none else some (digitsToNat ds)

/-- A JavaScript number as returned by the resolver: none models NaN. -/
abbrev JsNumber : Type := Option Int

/-- attributes of a build resource: the version attribute of a build is its
build counter rendered as a string. -/
structure BuildAttributes where
  version : String
deriving DecidableEq, Repr

/-- A build resource of the builds endpoints. -/
structure BuildResource where
  id : String
  attributes : BuildAttributes
deriving DecidableEq, Repr

/-- A pre-release version (train) resource. -/
structure PreReleaseVersionResource where
  id : String
deriving DecidableEq, Repr

/-- The versionInfo argument of getMaxBuildNumber: the release identifier
and its version string. -/
structure VersionInfo where
  id : String
  versionString : String
deriving DecidableEq, Repr

/-- The backend collaborator as seen by getMaxBuildNumber, one function per
query shape (appStoreClient of appStoreService.ts); array-or-single
response data is normalised to a list.  An error value models a rejected
call. -/
structure ResolverEnv where
  getBuildForVersion : String → Except String (List BuildResource)
  getPreReleaseVersions : String → String → Except String (List PreReleaseVersionResource)
  getBuildsForPreReleaseVersion : String → Except String (List BuildResource)
  getBuildsForAppVersion : String → String → Except String (List BuildResource)

/-- JavaScript try/catch over a fallible computation: an error raised by
the body is handed to the handler. -/
def tryCatchE {ε α : Type} (body : Except ε α) (handler : ε → Except ε α) : Except ε α :=
  match body with
  | Except.error e => handler e
  | Except.ok a => Except.ok a

/-- Method 1 of getMaxBuildNumber (before its catch): the direct
appStoreVersions build endpoint; when a build is present its version
attribute is parsed and returned. -/
def resolveBuildViaDirectEndpoint (env : ResolverEnv) (versionId : String) :
    Except String (Option JsNumber) :=
  match env.getBuildForVersion versionId with
  | Except.error e => Except.error e
  | Except.ok buildData =>
    match buildData.head? with
    | some build => Except.ok (some (jsParseInt build.attributes.version))
    | none => Except.ok none

/-- Method 2 of getMaxBuildNumber (before its catch): look up the
pre-release train for the version string, then the train's builds sorted
descending with limit 1; when a build is present its version attribute is
parsed and returned. -/
def resolveBuildViaPreReleaseVersion (env : ResolverEnv) (appId versionString : String) :
    Except String (Option JsNumber) :=
  match env.getPreReleaseVersions appId versionString with
  | Except.error e => Except.error e
  | Except.ok preReleaseData =>
    match preReleaseData.head? with
    | some preReleaseVersion =>
      match env.getBuildsForPreReleaseVersion preReleaseVersion.id with
      | Except.error e => Except.error e
      | Except.ok buildsData =>
        match buildsData.head? with
        | some build => Except.ok (some (jsParseInt build.attributes.version))
        | none => Except.ok none
    | none => Except.ok none

/-- Method 3 of getMaxBuildNumber (before its catch): a direct builds
search by application and version, sorted descending with limit 1. -/
def resolveBuildViaDirectSearch (env : ResolverEnv) (appId versionString : String) :
    Except String (Option JsNumber) :=
  match env.getBuildsForAppVersion appId versionString with
  | Except.error e => Except.error e
  | Except.ok directBuildsData =>
    match directBuildsData.head? with
    | some build => Except.ok (some (jsParseInt build.attributes.version))
    | none => Except.ok none

/-- getMaxBuildNumber of appStoreService.ts: a missing versionInfo resolves
to 0; otherwise the three methods run in order, each inside a try/catch
whose handler logs and falls through; an early return inside a try is the
some case; after all three methods, 0 is returned. -/
def getMaxBuildNumber (env : ResolverEnv) (versionInfo : Option VersionInfo) (appId : String) :
    Except String JsNumber :=
  match versionInfo with
  | none => Except.ok (some 0)
  | some vi =>
    match tryCatchE (resolveBuildViaDirectEndpoint env vi.id) (fun _ => Except.ok none) with
    | Except.error e => Except.error e
    | Except.ok (some n) => Except.ok n
    | Except.ok none =>
      match tryCatchE (resolveBuildViaPreReleaseVersion env appId vi.versionString)
          (fun _ => Except.ok none) with
      | Except.error e => Except.error e
      | Except.ok (some n) => Except.ok n
      | Except.ok none =>
        match tryCatchE (resolveBuildViaDirectSearch env appId vi.versionString)
            (fun _ => Except.ok none) with
        | Except.error e => Except.error e
        | Except.ok (some n) => Except.ok n
        | Except.ok none => Except.ok (some 0)

/-- Whether a boolean needle occurs as a contiguous run at the front of the
haystack. -/
def charsHavePrefix : List Char → List Char → Bool
  | [], _ => true
  | _ :: _, [] => false
  | a :: as, b :: bs => a = b && charsHavePrefix as bs

/-- Whether the needle occurs contiguously anywhere in the haystack. -/
def containsSub (needle : List Char) : List Char → Bool
  | [] => charsHavePrefix needle []
  | c :: cs => charsHavePrefix needle (c :: cs) || containsSub needle cs

/-- The outcome a single resolver source would produce, viewed as data:
error, no build, or a build whose counter parses to a value. -/
def sourceFailsOrEmpty (r : Except String (Option JsNumber)) : Prop :=
  (∃ e, r = Except.error e) ∨ r = Except.ok none

/-- All three resolver sources fail or yield no build for the given
release. -/
def allSourcesFailOrEmpty (env : ResolverEnv) (vi : VersionInfo) (appId : String) : Prop :=
  sourceFailsOrEmpty (resolveBuildViaDirectEndpoint env vi.id) ∧
  sourceFailsOrEmpty (resolveBuildViaPreReleaseVersion env appId vi.versionString) ∧
  sourceFailsOrEmpty (resolveBuildViaDirectSearch env appId vi.versionString)

/-- Spec-side resolution rule, following the claim's words only: walk the
yields of the sources in priority order and return the first value
strictly greater than 0; when no source yields such a value, 0. -/
def specFirstPositiveYield : List (Option Int) → Int
  | [] => 0
  | some n :: rest => if 0 < n then n else specFirstPositiveYield rest
  | none :: rest => specFirstPositiveYield rest

/-- Spec-side result of the resolver on the three source yields, following
the claim's words (strict priority order, short-circuit on the first value
strictly greater than 0). -/
def specResolverResult (yield1 yield2 yield3 : Option Int) : Int :=
  specFirstPositiveYield [yield1, yield2, yield3]

/-- Concrete release info used by witnesses. -/
def demoVersionInfo : VersionInfo :=
  { id := "ver-1", versionString := "1.0.1" }

/-- Concrete resolver environment: source 1 yields a build whose counter
string is "0", source 2 yields a pre-release train with a build counter
"5", source 3 yields no build. -/
def envZeroThenFive : ResolverEnv :=
  { getBuildForVersion := fun _ =>
      Except.ok [{ id := "b-0", attributes := { version := "0" } }]
    getPreReleaseVersions := fun _ _ =>
      Except.ok [{ id := "pre-1" }]
    getBuildsForPreReleaseVersion := fun _ =>
      Except.ok [{ id := "b-5", attributes := { version := "5" } }]
    getBuildsForAppVersion := fun _ _ =>
      Except.ok [] }

/-- Concrete resolver environment: source 1 rejects, source 2 yields a
build counter "5", source 3 would yield a different counter "9" (and is
never consulted). -/
def envFailThenFive : ResolverEnv :=
  { getBuildForVersion := fun _ => Except.error ("HTTP 500")
    getPreReleaseVersions := fun _ _ =>
      Except.ok [{ id := "pre-1" }]
    getBuildsForPreReleaseVersion := fun _ =>
      Except.ok [{ id := "b-5", attributes := { version := "5" } }]
    getBuildsForAppVersion := fun _ _ =>
      Except.ok [{ id := "b-9", attributes := { version := "9" } }] }

/-- Concrete resolver environment in which every backend call rejects. -/
def envAllReject : ResolverEnv :=
  { getBuildForVersion := fun _ => Except.error ("HTTP 500")
    getPreReleaseVersions := fun _ _ => Except.error ("HTTP 500")
    getBuildsForPreReleaseVersion := fun _ => Except.error ("HTTP 500")
    getBuildsForAppVersion := fun _ _ => Except.error ("HTTP 500") }

/-- Concrete candidate release in an incrementable state with its own build
counter 7, as in the spec's worked example. -/
def demoIncrementableVersion : AppStoreVersion :=
  { id := "ver-101"
    version := { major := 1, minor := 0, patch := 1 }
    buildNumber := { value := 7 }
    state := AppStoreState.PREPARE_FOR_SUBMISSION
    platform := "IOS"
    createdDate := "2024-01-02" }

/-- Concrete candidate release in the blocking READY_FOR_SALE state. -/
def demoLiveVersion : AppStoreVersion :=
  { id := "ver-100"
    version := { major := 1, minor := 0, patch := 1 }
    buildNumber := { value := 0 }
    state := AppStoreState.READY_FOR_SALE
    platform := "IOS"
    createdDate := "2024-01-01" }

/-- Concrete candidate release in an incrementable state with no builds. -/
def demoFreshVersion : AppStoreVersion :=
  { id := "ver-102"
    version := { major := 1, minor := 0, patch := 1 }
    buildNumber := { value := 0 }
    state := AppStoreState.WAITING_FOR_REVIEW
    platform := "IOS"
    createdDate := "2024-01-03" }

/-- Two ready-for-sale releases (versions 1.0.0 and 1.2.0, the smaller one
listed first) and one non-live release, for the live-version witness. -/
def demoVersionList : List AppStoreVersion :=
  [{ id := "v-a"
     version := { major := 1, minor := 0, patch := 0 }
     buildNumber := { value := 0 }
     state := AppStoreState.READY_FOR_SALE
     platform := "IOS"
     createdDate := "2023-01-01" },
   { id := "v-c"
     version := { major := 1, minor := 3, patch := 0 }
     buildNumber := { value := 0 }
     state := AppStoreState.PREPARE_FOR_SUBMISSION
     platform := "IOS"
     createdDate := "2023-03-01" },
   { id := "v-b"
     version := { major := 1, minor := 2, patch := 0 }
     buildNumber := { value := 0 }
     state := AppStoreState.READY_FOR_SALE
     platform := "IOS"
     createdDate := "2023-02-01" }]

/-- The value a caught resolver method contributes: none when the method
threw or found no build, otherwise the parsed counter it returned. -/
def methodYield (r : Except String (Option JsNumber)) : Option JsNumber :=
  match r with
  | Except.error _ => none
  | Except.ok v => v

/-- Backend build lookup that reports counter 0 for every release. -/
def demoFetchBuildZero : String → Except ApplicationError BuildNumber :=
  fun _ => Except.ok { value := 0 }

/-- Backend build lookup that reports counter 7 for every release. -/
def demoFetchBuildSeven : String → Except ApplicationError BuildNumber :=
  fun _ => Except.ok { value := 7 }

/-- A decimal digit character has the expected code point. -/
theorem digitChar_toNat (d : Nat) (h : d < 10) : (digitChar d).toNat = 48 + d := by
  interval_cases d <;> rfl

/-- A decimal digit character is a digit. -/
theorem digitChar_isDigit (d : Nat) (h : d < 10) : (digitChar d).isDigit = true := by
  interval_cases d <;> decide

/-- A decimal digit character is not a dot. -/
theorem digitChar_ne_dot (d : Nat) (h : d < 10) : digitChar d ≠ '.' := by
  interval_cases d <;> decide

/-- A decimal digit character is not whitespace. -/
theorem digitChar_not_whitespace (d : Nat) (h : d < 10) : (digitChar d).isWhitespace = false := by
  interval_cases d <;> decide

/-- Reading a digit string extended by one character multiplies by ten and
adds the new digit value. -/
theorem digitsToNat_append_digit (cs : List Char) (c : Char) :
    digitsToNat (cs ++ [c]) = 10 * digitsToNat cs + (c.toNat - 48) := by
  simp [digitsToNat, List.foldl_append]

/-- The fuelled renderer is correct whenever the fuel suffices. -/
theorem digitsToNat_natToCharsAux :
    ∀ fuel n, n ≤ fuel → digitsToNat (natToCharsAux fuel n) = n := by
  intro fuel
  induction fuel with
  | zero =>
    intro n h
    interval_cases n
    rfl
  | succ f ih =>
    intro n h
    match n with
    | 0 => rfl
    | m + 1 =>
      rw [natToCharsAux, digitsToNat_append_digit]
      have hdiv : (m + 1) / 10 < m + 1 := Nat.div_lt_self (Nat.succ_pos m) (by norm_num)
      rw [ih ((m + 1) / 10) (by omega)]
      rw [digitChar_toNat _ (Nat.mod_lt _ (by norm_num))]
      omega

/-- Every character produced by the fuelled renderer is a digit character. -/
theorem mem_natToCharsAux :
    ∀ fuel n c, c ∈ natToCharsAux fuel n → ∃ d, d < 10 ∧ c = digitChar d := by
  intro fuel
  induction fuel with
  | zero =>
    intro n c hc
    simp [natToCharsAux] at hc
  | succ f ih =>
    intro n c hc
    match n with
    | 0 => simp [natToCharsAux] at hc
    | m + 1 =>
      rw [natToCharsAux] at hc
      rcases List.mem_append.mp hc with h | h
      · exact ih _ _ h
      · simp only [List.mem_singleton] at h
        exact ⟨(m + 1) % 10, Nat.mod_lt _ (by norm_num), h⟩

/-- Reading back the decimal rendering of a natural number recovers it. -/
theorem digitsToNat_natToChars (n : Nat) : digitsToNat (natToChars n) = n := by
  by_cases h : n = 0
  · subst h; rfl
  · simp only [natToChars, if_neg h]
    exact digitsToNat_natToCharsAux (n + 1) n (by omega)

/-- Every character of the decimal rendering is a digit character. -/
theorem mem_natToChars (n : Nat) (c : Char) (hc : c ∈ natToChars n) :
    ∃ d, d < 10 ∧ c = digitChar d := by
  by_cases h : n = 0
  · subst h
    simp [natToChars] at hc
    exact ⟨0, by norm_num, by rw [hc]; rfl⟩
  · simp only [natToChars, if_neg h] at hc
    exact mem_natToCharsAux _ _ _ hc

/-- The decimal rendering is never empty. -/
theorem natToChars_ne_nil (n : Nat) : natToChars n ≠ [] := by
  by_cases h : n = 0
  · subst h; simp [natToChars]
  · obtain ⟨m, rfl⟩ : ∃ m, n = m + 1 := ⟨n - 1, by omega⟩
    simp only [natToChars, if_neg h]
    rw [natToCharsAux]
    simp

/-- The decimal rendering is never empty, boolean form. -/
theorem natToChars_isEmpty (n : Nat) : (natToChars n).isEmpty = false := by
  cases hc : natToChars n with
  | nil => exact absurd hc (natToChars_ne_nil n)
  | cons x xs => rfl

/-- The decimal rendering is all digits. -/
theorem natToChars_all_digit (n : Nat) : (natToChars n).all Char.isDigit = true := by
  rw [List.all_eq_true]
  intro c hc
  obtain ⟨d, hd, rfl⟩ := mem_natToChars n c hc
  exact digitChar_isDigit d hd

/-- The decimal rendering contains no dot. -/
theorem natToChars_no_dot (n : Nat) : ∀ c ∈ natToChars n, c ≠ '.' := by
  intro c hc
  obtain ⟨d, hd, rfl⟩ := mem_natToChars n c hc
  exact digitChar_ne_dot d hd

/-- The decimal rendering contains no whitespace. -/
theorem natToChars_no_whitespace (n : Nat) : ∀ c ∈ natToChars n, c.isWhitespace = false := by
  intro c hc
  obtain ⟨d, hd, rfl⟩ := mem_natToChars n c hc
  exact digitChar_not_whitespace d hd

/-- dropWhile is the identity on a list whose members all fail the
predicate. -/
theorem dropWhile_eq_self_of_not {p : Char → Bool} :
    ∀ cs : List Char, (∀ c ∈ cs, p c = false) → cs.dropWhile p = cs := by
  intro cs h
  cases cs with
  | nil => rfl
  | cons a l => simp [List.dropWhile_cons, h a (by simp)]

/-- Trimming a string with no whitespace characters is the identity. -/
theorem jsTrim_eq_self (cs : List Char) (h : ∀ c ∈ cs, c.isWhitespace = false) :
    jsTrim cs = cs := by
  unfold jsTrim
  rw [dropWhile_eq_self_of_not cs h]
  rw [dropWhile_eq_self_of_not cs.reverse (fun c hc => h c (List.mem_reverse.mp hc))]
  exact List.reverse_reverse cs

/-- Splitting a dot-free list yields a single group. -/
theorem splitOnDot_no_dot : ∀ x : List Char, (∀ c ∈ x, c ≠ '.') → splitOnDot x = [x] := by
  intro x
  induction x with
  | nil => intro _; rfl
  | cons a l ih =>
    intro h
    rw [splitOnDot, if_neg (h a (by simp)), ih (fun c hc => h c (by simp [hc]))]

/-- Splitting a list that starts with a dot-free group followed by a dot
peels off that group. -/
theorem splitOnDot_append_dot :
    ∀ x rest : List Char, (∀ c ∈ x, c ≠ '.') →
      splitOnDot (x ++ '.' :: rest) = x :: splitOnDot rest := by
  intro x
  induction x with
  | nil =>
    intro rest _
    simp [splitOnDot]
  | cons a l ih =>
    intro rest h
    rw [List.cons_append, splitOnDot, if_neg (h a (by simp)),
      ih rest (fun c hc => h c (by simp [hc]))]

/-- Splitting the canonical dotted rendering of three numbers yields the
three digit groups. -/
theorem splitOnDot_canonical (a b c : Nat) :
    splitOnDot (natToChars a ++ '.' :: (natToChars b ++ '.' :: natToChars c)) =
      [natToChars a, natToChars b, natToChars c] := by
  rw [splitOnDot_append_dot _ _ (natToChars_no_dot a),
    splitOnDot_append_dot _ _ (natToChars_no_dot b),
    splitOnDot_no_dot _ (natToChars_no_dot c)]

/-- The canonical dotted rendering contains no whitespace. -/
theorem canonical_no_whitespace (a b c : Nat) :
    ∀ ch ∈ natToChars a ++ ('.' :: natToChars b) ++ ('.' :: natToChars c),
      ch.isWhitespace = false := by
  intro ch hch
  rcases List.mem_append.mp hch with h | h
  · rcases List.mem_append.mp h with h2 | h2
    · exact natToChars_no_whitespace a ch h2
    · rcases List.mem_cons.mp h2 with h3 | h3
      · rw [h3]; decide
      · exact natToChars_no_whitespace b ch h3
  · rcases List.mem_cons.mp h with h3 | h3
    · rw [h3]; decide
    · exact natToChars_no_whitespace c ch h3

/-- The canonical dotted rendering is non-empty, boolean form. -/
theorem canonical_isEmpty (a b c : Nat) :
    (natToChars a ++ ('.' :: natToChars b) ++ ('.' :: natToChars c)).isEmpty = false := by
  cases hc : natToChars a ++ ('.' :: natToChars b) ++ ('.' :: natToChars c) with
  | nil =>
    obtain ⟨h1, -⟩ := List.append_eq_nil.mp hc
    obtain ⟨h2, -⟩ := List.append_eq_nil.mp h1
    exact absurd h2 (natToChars_ne_nil a)
  | cons x xs => rfl

/-- The canonical dotted rendering passes the version pattern test. -/
theorem semanticVersionPatternTest_canonical (a b c : Nat) :
    semanticVersionPatternTest
      (natToChars a ++ '.' :: (natToChars b ++ '.' :: natToChars c)) = true := by
  unfold semanticVersionPatternTest
  rw [splitOnDot_canonical]
  simp [natToChars_isEmpty, natToChars_all_digit]

/-- Parsing the canonical rendering of three components recovers exactly
those components. -/
theorem parse_versionStringOf (a b c : Nat) :
    SemanticVersion.parse (SemanticVersion.versionStringOf a b c) =
      Except.ok { major := a, minor := b, patch := c } := by
  have hL : (SemanticVersion.versionStringOf a b c).data =
      natToChars a ++ ('.' :: natToChars b) ++ ('.' :: natToChars c) := rfl
  unfold SemanticVersion.parse
  rw [hL]
  rw [jsTrim_eq_self _ (canonical_no_whitespace a b c)]
  rw [canonical_isEmpty a b c]
  simp [semanticVersionPatternTest_canonical a b c, splitOnDot_canonical a b c,
    digitsToNat_natToChars]

/-- compareTo is antisymmetric: the comparisons in the two directions sum
to zero. -/
theorem compareTo_antisymm (x y : SemanticVersion) :
    x.compareTo y + y.compareTo x = 0 := by
  simp only [SemanticVersion.compareTo]
  split_ifs <;> omega

/-- compareTo of a version with itself is zero. -/
theorem compareTo_self (x : SemanticVersion) : x.compareTo x = 0 := by
  simp [SemanticVersion.compareTo]

/-- Non-positivity of compareTo is transitive. -/
theorem compareTo_nonpos_trans (x y z : SemanticVersion)
    (hxy : x.compareTo y ≤ 0) (hyz : y.compareTo z ≤ 0) : x.compareTo z ≤ 0 := by
  simp only [SemanticVersion.compareTo] at hxy hyz ⊢
  split_ifs at hxy hyz ⊢ <;> omega

/-- Non-positivity of compareTo is total. -/
theorem compareTo_nonpos_total (x y : SemanticVersion) :
    x.compareTo y ≤ 0 ∨ y.compareTo x ≤ 0 := by
  have h := compareTo_antisymm x y
  omega

/-- The version comparator is reflexive. -/
theorem versionDescLe_refl (v : AppStoreVersion) : versionDescLe v v = true := by
  simp [versionDescLe, compareTo_self]

/-- The version comparator is total. -/
theorem versionDescLe_total (a b : AppStoreVersion) :
    versionDescLe a b = true ∨ versionDescLe b a = true := by
  simp only [versionDescLe, decide_eq_true_eq]
  exact (compareTo_nonpos_total b.version a.version).elim Or.inl Or.inr

/-- The version comparator is transitive. -/
theorem versionDescLe_trans (a b c : AppStoreVersion)
    (hab : versionDescLe a b = true) (hbc : versionDescLe b c = true) :
    versionDescLe a c = true := by
  simp only [versionDescLe, decide_eq_true_eq] at hab hbc ⊢
  exact compareTo_nonpos_trans c.version b.version a.version hbc hab

/-- Membership in a stable insertion. -/
theorem mem_insertSortedBy {α : Type} (le : α → α → Bool) (a x : α) :
    ∀ l : List α, x ∈ insertSortedBy le a l ↔ x = a ∨ x ∈ l := by
  intro l
  induction l with
  | nil => simp [insertSortedBy]
  | cons b t ih =>
    by_cases h : le a b
    · simp [insertSortedBy, h]
    · simp only [insertSortedBy, if_neg h, List.mem_cons, ih]
      tauto

/-- Membership is preserved by the stable insertion sort. -/
theorem mem_sortBy {α : Type} (le : α → α → Bool) (x : α) :
    ∀ l : List α, x ∈ sortBy le l ↔ x ∈ l := by
  intro l
  induction l with
  | nil => simp [sortBy]
  | cons a t ih =>
    simp only [sortBy, mem_insertSortedBy, ih, List.mem_cons]

/-- A stable insertion into a pairwise-ordered list stays pairwise ordered,
for a total and transitive comparator. -/
theorem pairwise_insertSortedBy {α : Type} (le : α → α → Bool)
    (htotal : ∀ x y, le x y = true ∨ le y x = true)
    (htrans : ∀ x y z, le x y = true → le y z = true → le x z = true) (a : α) :
    ∀ l : List α, List.Pairwise (fun x y => le x y = true) l →
      List.Pairwise (fun x y => le x y = true) (insertSortedBy le a l) := by
  intro l
  induction l with
  | nil =>
    intro _
    simp [insertSortedBy]
  | cons b t ih =>
    intro hp
    rcases List.pairwise_cons.mp hp with ⟨hb, ht⟩
    by_cases h : le a b
    · rw [insertSortedBy, if_pos h]
      refine List.pairwise_cons.mpr ⟨?_, hp⟩
      intro x hx
      rcases List.mem_cons.mp hx with hxb | hxt
      · rw [hxb]; exact h
      · exact htrans a b x h (hb x hxt)
    · rw [insertSortedBy, if_neg h]
      refine List.pairwise_cons.mpr ⟨?_, ih ht⟩
      intro x hx
      rcases (mem_insertSortedBy le a x t).mp hx with hxa | hxt
      · rw [hxa]
        rcases htotal a b with hab | hba
        · exact absurd hab h
        · exact hba
      · exact hb x hxt

/-- The stable insertion sort produces a pairwise-ordered list, for a total
and transitive comparator. -/
theorem pairwise_sortBy {α : Type} (le : α → α → Bool)
    (htotal : ∀ x y, le x y = true ∨ le y x = true)
    (htrans : ∀ x y z, le x y = true → le y z = true → le x z = true) :
    ∀ l : List α, List.Pairwise (fun x y => le x y = true) (sortBy le l) := by
  intro l
  induction l with
  | nil => simp [sortBy]
  | cons a t ih => exact pairwise_insertSortedBy le htotal htrans a _ ih

/-- The head of the sorted ready-for-sale list relates to every element of
the unsorted list under the comparator. -/
theorem sortBy_head_le (le : AppStoreVersion → AppStoreVersion → Bool)
    (htotal : ∀ x y, le x y = true ∨ le y x = true)
    (htrans : ∀ x y z, le x y = true → le y z = true → le x z = true)
    (hrefl : ∀ x, le x x = true)
    (l : List AppStoreVersion) (h : AppStoreVersion) (t : List AppStoreVersion)
    (hsort : sortBy le l = h :: t) :
    ∀ v ∈ l, le h v = true := by
  intro v hv
  have hv' : v ∈ sortBy le l := (mem_sortBy le v l).mpr hv
  rw [hsort] at hv'
  rcases List.mem_cons.mp hv' with hvh | hvt
  · rw [hvh]; exact hrefl h
  · have hp := pairwise_sortBy le htotal htrans l
    rw [hsort] at hp
    exact (List.pairwise_cons.mp hp).1 v hvt

/-- A needle contained in the suffix is contained in the whole. -/
theorem containsSub_append_right (needle ys : List Char) (h : containsSub needle ys = true) :
    ∀ xs : List Char, containsSub needle (xs ++ ys) = true := by
  intro xs
  induction xs with
  | nil => simpa using h
  | cons c t ih => simp [containsSub, ih]

/-- The build number selected for an incrementable existing version, in
closed form: the incremented global maximum when the version has no builds,
otherwise the larger of the version's next build and the incremented global
maximum. -/
theorem calculateNextBuildNumber_eq (version : AppStoreVersion) (m : BuildNumber) :
    VersionCalculationService._calculateNextBuildNumber version m =
      { value := if version.buildNumber.getValue = 0 then m.getValue + 1
                 else max (version.buildNumber.getValue + 1) (m.getValue + 1) } := by
  have core : ∀ own k : Nat,
      (if (decide (0 < own)) = false then ({ value := k + 1 } : BuildNumber)
       else if ({ value := own + 1 } : BuildNumber).isGreaterThan { value := k + 1 } then
         ({ value := own + 1 } : BuildNumber)
       else ({ value := k + 1 } : BuildNumber)) =
      { value := if own = 0 then k + 1 else max (own + 1) (k + 1) } := by
    intro own k
    by_cases h0 : own = 0
    · subst h0
      simp
    · have hpos : 0 < own := Nat.pos_of_ne_zero h0
      have hd : decide (0 < own) = true := decide_eq_true hpos
      rw [hd, if_neg (by simp : ¬(true = false)), if_neg h0]
      by_cases hgt : ({ value := own + 1 } : BuildNumber).isGreaterThan { value := k + 1 } = true
      · rw [if_pos hgt]
        simp only [BuildNumber.isGreaterThan, BuildNumber.compareTo, BuildNumber.getValue,
          decide_eq_true_eq] at hgt
        simp only [BuildNumber.mk.injEq]
        omega
      · rw [if_neg hgt]
        simp only [BuildNumber.isGreaterThan, BuildNumber.compareTo, BuildNumber.getValue,
          decide_eq_true_eq] at hgt
        simp only [BuildNumber.mk.injEq]
        omega
  exact core version.buildNumber.value m.value

/-- Unfolding equation of determineVersionAction on a present candidate. -/
theorem determineVersionAction_some (version : AppStoreVersion) (m : BuildNumber) :
    VersionCalculationService.determineVersionAction (some version) m =
      if version.canIncrementBuildNumber then
        Except.ok
          { action := VersionActionType.INCREMENT_BUILD_NUMBER
            buildNumber := some (VersionCalculationService._calculateNextBuildNumber version m)
            requiresVersionCreation := false }
      else
        Except.error (VersionCalculationService._createVersionStateError version) := rfl

/-- C1: for every candidate release in an incrementable state and every
current maximum build number, determineVersionAction returns
INCREMENT_BUILD_NUMBER with requiresVersionCreation false, and the build
number is currentMaxBuild + 1 when the candidate's own counter is 0, and
otherwise the larger of the candidate's own counter + 1 and
currentMaxBuild + 1. -/
theorem determineVersionAction_incrementable (version : AppStoreVersion)
    (maxExistingBuildNumber : BuildNumber)
    (h : version.canIncrementBuildNumber = true) :
    VersionCalculationService.determineVersionAction (some version) maxExistingBuildNumber =
      Except.ok
        { action := VersionActionType.INCREMENT_BUILD_NUMBER
          buildNumber := some
            { value :=
                if version.buildNumber.getValue = 0 then maxExistingBuildNumber.getValue + 1
                else max (version.buildNumber.getValue + 1) (maxExistingBuildNumber.getValue + 1) }
          requiresVersionCreation := false } := by
  rw [determineVersionAction_some, if_pos h, calculateNextBuildNumber_eq]

/-- C1 witness: candidate in prepare-for-submission with own counter 7 and
current maximum 10 yields build number 11. -/
theorem determineVersionAction_incrementable_witness :
    VersionCalculationService.determineVersionAction (some demoIncrementableVersion)
        { value := 10 } =
      Except.ok
        { action := VersionActionType.INCREMENT_BUILD_NUMBER
          buildNumber := some { value := 11 }
          requiresVersionCreation := false } := by
  have h := determineVersionAction_incrementable demoIncrementableVersion
    { value := 10 } (by decide)
  simpa [demoIncrementableVersion, BuildNumber.getValue] using h

/-- C2: for every candidate release in a non-incrementable state,
determineVersionAction fails with the business-rule error whose code is
VERSION_INCREMENT_NOT_ALLOWED, whose reason is the blocking state's string,
and whose message carries the state-specific remediation description; for
READY_FOR_SALE the message mentions already live. -/
theorem determineVersionAction_blocking_error (version : AppStoreVersion)
    (maxExistingBuildNumber : BuildNumber)
    (h : version.canIncrementBuildNumber = false) :
    VersionCalculationService.determineVersionAction (some version) maxExistingBuildNumber =
      Except.error (VersionCalculationService._createVersionStateError version) ∧
    (VersionCalculationService._createVersionStateError version).code =
      ApplicationErrorCode.VERSION_INCREMENT_NOT_ALLOWED ∧
    (VersionCalculationService._createVersionStateError version).reason =
      some version.state.stateString ∧
    (VersionCalculationService._createVersionStateError version).message =
      "Cannot add builds to version " ++ version.version.toString ++ ": " ++
        stateDescription version.state ∧
    (version.state = AppStoreState.READY_FOR_SALE →
      containsSub ("already live").data
        (VersionCalculationService._createVersionStateError version).message.data = true) := by
  refine ⟨?_, rfl, rfl, rfl, ?_⟩
  · rw [determineVersionAction_some, if_neg]
    simp [h]
  · intro hstate
    have hdata : (VersionCalculationService._createVersionStateError version).message.data =
        ("Cannot add builds to version " ++ version.version.toString ++ ": ").data ++
          (stateDescription version.state).data := by
      simp [VersionCalculationService._createVersionStateError, createBusinessLogicError,
        String.data_append]
    rw [hdata, hstate]
    exact containsSub_append_right _ _ (by decide) _

/-- C2 witness: a READY_FOR_SALE candidate yields the state error, whose
message mentions already live. -/
theorem determineVersionAction_blocking_error_witness :
    VersionCalculationService.determineVersionAction (some demoLiveVersion) { value := 10 } =
      Except.error (VersionCalculationService._createVersionStateError demoLiveVersion) ∧
    containsSub ("already live").data
      (VersionCalculationService._createVersionStateError demoLiveVersion).message.data = true := by
  have h := determineVersionAction_blocking_error demoLiveVersion { value := 10 } (by decide)
  exact ⟨h.1, h.2.2.2.2 rfl⟩

/-- C3: when the candidate release is absent, determineVersionAction
returns CREATE_NEW_VERSION with build number currentMaxBuild + 1 and
requiresVersionCreation true. -/
theorem determineVersionAction_absent (maxExistingBuildNumber : BuildNumber) :
    VersionCalculationService.determineVersionAction none maxExistingBuildNumber =
      Except.ok
        { action := VersionActionType.CREATE_NEW_VERSION
          buildNumber := some { value := maxExistingBuildNumber.getValue + 1 }
          requiresVersionCreation := true } := rfl

/-- C8: whenever determineVersionAction returns normally, the returned
build number is present and strictly greater than the given maximum. -/
theorem determineVersionAction_buildNumber_gt_max (targetVersion : Option AppStoreVersion)
    (maxExistingBuildNumber : BuildNumber) (result : VersionActionResult)
    (h : VersionCalculationService.determineVersionAction targetVersion maxExistingBuildNumber =
      Except.ok result) :
    ∃ b, result.buildNumber = some b ∧ maxExistingBuildNumber.getValue < b.getValue := by
  cases targetVersion with
  | none =>
    unfold VersionCalculationService.determineVersionAction at h
    injection h with h'
    subst h'
    exact ⟨maxExistingBuildNumber.increment, rfl, by
      simp [BuildNumber.increment, BuildNumber.getValue]⟩
  | some version =>
    rw [determineVersionAction_some] at h
    by_cases hc : version.canIncrementBuildNumber
    · rw [if_pos hc, calculateNextBuildNumber_eq] at h
      injection h with h'
      subst h'
      refine ⟨_, rfl, ?_⟩
      simp only [BuildNumber.getValue]
      split_ifs <;> omega
    · rw [if_neg hc] at h
      exact absurd h (by simp)

/-- C8 witness: an incrementable candidate with own counter 7 against
maximum 10 yields a build number strictly above 10. -/
theorem determineVersionAction_buildNumber_gt_max_witness :
    ∃ b, ({ action := VersionActionType.INCREMENT_BUILD_NUMBER
            buildNumber := some { value := 11 }
            requiresVersionCreation := false } : VersionActionResult).buildNumber = some b ∧
      ({ value := 10 } : BuildNumber).getValue < b.getValue :=
  determineVersionAction_buildNumber_gt_max (some demoIncrementableVersion)
    { value := 10 } _ (by rfl)

/-- C9: every increment mode produces a version comparing strictly greater
than its origin, and the computed candidate version therefore satisfies
isValidVersionProgression against the version it was derived from. -/
theorem increment_strictly_greater (v : SemanticVersion) (incrementType : VersionIncrementType) :
    ∃ w, VersionCalculationService.calculateNextSemanticVersion v incrementType = Except.ok w ∧
      0 < w.compareTo v ∧
      VersionCalculationService.isValidVersionProgression v w = true := by
  have hgt : ∀ w : SemanticVersion, 0 < w.compareTo v →
      VersionCalculationService.isValidVersionProgression v w = true := by
    intro w hw
    simp [VersionCalculationService.isValidVersionProgression, SemanticVersion.isGreaterThan, hw]
  cases incrementType with
  | patch =>
    refine ⟨{ major := v.major, minor := v.minor, patch := v.patch + 1 }, ?_, ?_, ?_⟩
    · exact parse_versionStringOf v.major v.minor (v.patch + 1)
    · simp only [SemanticVersion.compareTo]
      split_ifs <;> omega
    · apply hgt
      simp only [SemanticVersion.compareTo]
      split_ifs <;> omega
  | minor =>
    refine ⟨{ major := v.major, minor := v.minor + 1, patch := 0 }, ?_, ?_, ?_⟩
    · exact parse_versionStringOf v.major (v.minor + 1) 0
    · simp only [SemanticVersion.compareTo]
      split_ifs <;> omega
    · apply hgt
      simp only [SemanticVersion.compareTo]
      split_ifs <;> omega
  | major =>
    refine ⟨{ major := v.major + 1, minor := 0, patch := 0 }, ?_, ?_, ?_⟩
    · exact parse_versionStringOf (v.major + 1) 0 0
    · simp only [SemanticVersion.compareTo]
      split_ifs <;> omega
    · apply hgt
      simp only [SemanticVersion.compareTo]
      split_ifs <;> omega

/-- C6: when the backend reports build counter 0 for a fetched release, the
resolution fails with the data-inconsistency error exactly when the release
is READY_FOR_SALE, and returns counter 0 without error in any other state. -/
theorem fetchVersionBuildNumber_readyForSale_zero
    (fetchBuildNumberForVersion : String → Except ApplicationError BuildNumber)
    (version : AppStoreVersion)
    (h : fetchBuildNumberForVersion version.id = Except.ok { value := 0 }) :
    (version.state = AppStoreState.READY_FOR_SALE →
      ∃ e, AppVersionService._fetchVersionBuildNumber fetchBuildNumberForVersion version =
          Except.error e ∧
        e.code = ApplicationErrorCode.INCONSISTENT_DATA_STATE) ∧
    (version.state ≠ AppStoreState.READY_FOR_SALE →
      AppVersionService._fetchVersionBuildNumber fetchBuildNumberForVersion version =
        Except.ok { value := 0 }) := by
  have heq : AppVersionService._fetchVersionBuildNumber fetchBuildNumberForVersion version =
      if version.state = AppStoreState.READY_FOR_SALE ∧
          ({ value := 0 } : BuildNumber).getValue = 0 then
        Except.error
          (createBusinessLogicError
            ("READY_FOR_SALE version " ++ version.version.toString ++
              " has no associated build. This indicates a data inconsistency in App Store Connect.")
            ApplicationErrorCode.INCONSISTENT_DATA_STATE none)
      else Except.ok { value := 0 } := by
    unfold AppVersionService._fetchVersionBuildNumber
    rw [h]
  constructor
  · intro hstate
    rw [heq, if_pos ⟨hstate, rfl⟩]
    exact ⟨_, rfl, rfl⟩
  · intro hstate
    rw [heq, if_neg (fun hcontra => hstate hcontra.1)]

/-- C6 witness: a READY_FOR_SALE release with fetched counter 0 fails with
the data-inconsistency code, while a WAITING_FOR_REVIEW release with
counter 0 resolves to 0. -/
theorem fetchVersionBuildNumber_readyForSale_zero_witness :
    (∃ e, AppVersionService._fetchVersionBuildNumber demoFetchBuildZero demoLiveVersion =
        Except.error e ∧
      e.code = ApplicationErrorCode.INCONSISTENT_DATA_STATE) ∧
    AppVersionService._fetchVersionBuildNumber demoFetchBuildZero demoFreshVersion =
      Except.ok { value := 0 } :=
  ⟨(fetchVersionBuildNumber_readyForSale_zero demoFetchBuildZero demoLiveVersion rfl).1 rfl,
   (fetchVersionBuildNumber_readyForSale_zero demoFetchBuildZero demoFreshVersion rfl).2
     (by decide)⟩

/-- C7 counterexample: the string 01.0.0 is accepted by the version parser
but does not round-trip: toString of its parse is 1.0.0. -/
theorem version_roundTrip_counterexample :
    (SemanticVersion.parse ("01.0.0")).map SemanticVersion.toString = Except.ok ("1.0.0") ∧
    ("1.0.0" : String) ≠ "01.0.0" := by
  constructor
  · rfl
  · decide

/-- C7, amended: for every string in canonical dotted form (decimal
numerals without leading zeros or surrounding whitespace) the parser
round-trips, and the increments produce the documented component changes:
patch + 1, minor + 1 with patch reset, major + 1 with minor and patch
reset. -/
theorem version_roundTrip_canonical_amended (a b c : Nat) :
    (SemanticVersion.parse (SemanticVersion.versionStringOf a b c)).map SemanticVersion.toString =
      Except.ok (SemanticVersion.versionStringOf a b c) ∧
    SemanticVersion.incrementPatch { major := a, minor := b, patch := c } =
      Except.ok { major := a, minor := b, patch := c + 1 } ∧
    SemanticVersion.incrementMinor { major := a, minor := b, patch := c } =
      Except.ok { major := a, minor := b + 1, patch := 0 } ∧
    SemanticVersion.incrementMajor { major := a, minor := b, patch := c } =
      Except.ok { major := a + 1, minor := 0, patch := 0 } := by
  refine ⟨?_, ?_, ?_, ?_⟩
  · rw [parse_versionStringOf]
    rfl
  · exact parse_versionStringOf a b (c + 1)
  · exact parse_versionStringOf a (b + 1) 0
  · exact parse_versionStringOf (a + 1) 0 0

/-- A catch whose handler swallows the error turns a method outcome into
its yield. -/
theorem tryCatchE_swallow (body : Except String (Option JsNumber)) :
    tryCatchE body (fun _ => Except.ok none) = Except.ok (methodYield body) := by
  cases body <;> rfl

/-- The resolver, characterised on a present release: it returns, without
error, the yield of the first method that yields, and 0 when none does. -/
theorem getMaxBuildNumber_eq (env : ResolverEnv) (vi : VersionInfo) (appId : String) :
    getMaxBuildNumber env (some vi) appId =
      Except.ok
        (match methodYield (resolveBuildViaDirectEndpoint env vi.id) with
         | some n => n
         | none =>
           match methodYield (resolveBuildViaPreReleaseVersion env appId vi.versionString) with
           | some n => n
           | none =>
             match methodYield (resolveBuildViaDirectSearch env appId vi.versionString) with
             | some n => n
             | none => some 0) := by
  simp only [getMaxBuildNumber, tryCatchE_swallow]
  cases hy1 : methodYield (resolveBuildViaDirectEndpoint env vi.id) with
  | some n => rfl
  | none =>
    cases hy2 : methodYield (resolveBuildViaPreReleaseVersion env appId vi.versionString) with
    | some n => rfl
    | none =>
      cases hy3 : methodYield (resolveBuildViaDirectSearch env appId vi.versionString) with
      | some n => rfl
      | none => rfl

/-- A source that fails or yields no build contributes no yield. -/
theorem methodYield_of_failsOrEmpty (r : Except String (Option JsNumber))
    (h : sourceFailsOrEmpty r) : methodYield r = none := by
  rcases h with ⟨e, rfl⟩ | rfl <;> rfl

/-- C5: the resolver never propagates an error, and when all three sources
fail or yield no build it resolves to 0. -/
theorem getMaxBuildNumber_never_propagates (env : ResolverEnv)
    (versionInfo : Option VersionInfo) (appId : String) :
    (∃ v, getMaxBuildNumber env versionInfo appId = Except.ok v) ∧
    (∀ vi, versionInfo = some vi → allSourcesFailOrEmpty env vi appId →
      getMaxBuildNumber env versionInfo appId = Except.ok (some 0)) := by
  constructor
  · cases versionInfo with
    | none => exact ⟨some 0, rfl⟩
    | some vi => exact ⟨_, getMaxBuildNumber_eq env vi appId⟩
  · intro vi hvi hall
    subst hvi
    rw [getMaxBuildNumber_eq]
    rw [methodYield_of_failsOrEmpty _ hall.1, methodYield_of_failsOrEmpty _ hall.2.1,
      methodYield_of_failsOrEmpty _ hall.2.2]

/-- C5 witness: with every backend call rejecting, the resolver returns 0
rather than an error. -/
theorem getMaxBuildNumber_never_propagates_witness :
    getMaxBuildNumber envAllReject (some demoVersionInfo) ("app-1") = Except.ok (some 0) :=
  (getMaxBuildNumber_never_propagates envAllReject (some demoVersionInfo) ("app-1")).2
    demoVersionInfo rfl
    ⟨Or.inl ⟨"HTTP 500", rfl⟩, Or.inl ⟨"HTTP 500", rfl⟩, Or.inl ⟨"HTTP 500", rfl⟩⟩

/-- C4 counterexample: when source 1 yields a build whose counter string is
"0" and source 2 yields a positive counter 5, the resolver returns 0, while
the claim's rule (short-circuit on the first source yielding a value
strictly greater than 0) selects 5. -/
theorem getMaxBuildNumber_spec_counterexample :
    getMaxBuildNumber envZeroThenFive (some demoVersionInfo) ("app-1") = Except.ok (some 0) ∧
    specResolverResult (some 0) (some 5) none = 5 ∧
    getMaxBuildNumber envZeroThenFive (some demoVersionInfo) ("app-1") ≠
      Except.ok (some (specResolverResult (some 0) (some 5) none)) := by
  refine ⟨rfl, rfl, ?_⟩
  intro hcontra
  have h1 : (some 0 : JsNumber) = some (specResolverResult (some 0) (some 5) none) :=
    Except.ok.inj hcontra
  have h2 : (0 : Int) = specResolverResult (some 0) (some 5) none := Option.some.inj h1
  rw [show specResolverResult (some 0) (some 5) none = 5 from rfl] at h2
  exact absurd h2 (by decide)

/-- C4, amended: the resolver consults its sources in strict priority
order and short-circuits on the first source that yields a build at all,
returning that build's parsed counter (even when it is not positive); in
particular, when source 1 fails or yields no build and source 2 yields a
build with positive counter, the result is source 2's counter, independent
of source 3 (which is never consulted). -/
theorem getMaxBuildNumber_priority_amended (env : ResolverEnv) (vi : VersionInfo)
    (appId : String) :
    (∀ buildData b, env.getBuildForVersion vi.id = Except.ok buildData →
      buildData.head? = some b →
      getMaxBuildNumber env (some vi) appId = Except.ok (jsParseInt b.attributes.version)) ∧
    (sourceFailsOrEmpty (resolveBuildViaDirectEndpoint env vi.id) →
      ∀ preData pre buildsData b n,
        env.getPreReleaseVersions appId vi.versionString = Except.ok preData →
        preData.head? = some pre →
        env.getBuildsForPreReleaseVersion pre.id = Except.ok buildsData →
        buildsData.head? = some b →
        jsParseInt b.attributes.version = some n → 0 < n →
        getMaxBuildNumber env (some vi) appId = Except.ok (some n)) := by
  constructor
  · intro buildData b hbuild hhead
    have h1 : resolveBuildViaDirectEndpoint env vi.id =
        Except.ok (some (jsParseInt b.attributes.version)) := by
      simp only [resolveBuildViaDirectEndpoint, hbuild]
      rw [hhead]
    rw [getMaxBuildNumber_eq, h1]
    rfl
  · intro hfail preData pre buildsData b n hpre hprehead hbuilds hbhead hparse hpos
    have h2 : resolveBuildViaPreReleaseVersion env appId vi.versionString =
        Except.ok (some (jsParseInt b.attributes.version)) := by
      simp only [resolveBuildViaPreReleaseVersion, hpre]
      rw [hprehead]
      simp only [hbuilds]
      rw [hbhead]
    rw [getMaxBuildNumber_eq, methodYield_of_failsOrEmpty _ hfail, h2, hparse]
    rfl

/-- C4 witness: source 1 rejects, source 2 yields counter 5, source 3 would
yield counter 9; the resolver returns 5. -/
theorem getMaxBuildNumber_priority_amended_witness :
    getMaxBuildNumber envFailThenFive (some demoVersionInfo) ("app-1") = Except.ok (some 5) :=
  (getMaxBuildNumber_priority_amended envFailThenFive demoVersionInfo ("app-1")).2
    (Or.inl ⟨"HTTP 500", rfl⟩)
    [{ id := "pre-1" }] { id := "pre-1" }
    [{ id := "b-5", attributes := { version := "5" } }]
    { id := "b-5", attributes := { version := "5" } } 5
    rfl rfl rfl rfl (by rfl) (by norm_num)

/-- Unfolding equation of fetchLiveVersion when the response is non-empty,
the ready-for-sale filter is non-empty, and the sorted list is known. -/
theorem fetchLiveVersion_eq (versions : List AppStoreVersion)
    (fetchBuildNumberForVersion : String → Except ApplicationError BuildNumber)
    (live : AppStoreVersion) (rest : List AppStoreVersion)
    (he : versions.isEmpty = false)
    (hsort : sortBy versionDescLe
        (versions.filter (fun version => decide (version.state = AppStoreState.READY_FOR_SALE))) =
      live :: rest) :
    AppVersionService.fetchLiveVersion versions fetchBuildNumberForVersion =
      match AppVersionService._fetchVersionBuildNumber fetchBuildNumberForVersion live with
      | Except.error e => Except.error e
      | Except.ok buildNumber =>
        Except.ok (AppVersionService._createVersionWithBuildNumber live buildNumber) := by
  have hf : (versions.filter
      (fun version => decide (version.state = AppStoreState.READY_FOR_SALE))).isEmpty = false := by
    cases hc : versions.filter (fun version => decide (version.state = AppStoreState.READY_FOR_SALE)) with
    | nil => rw [hc] at hsort; exact absurd hsort (by simp [sortBy])
    | cons x xs => rfl
  simp only [AppVersionService.fetchLiveVersion, he, hf, hsort]
  rfl

/-- C10: whenever fetchLiveVersion succeeds, the returned record is built
from a ready-for-sale release of the response whose version is maximal
among all ready-for-sale releases of the response, completed with the
resolved build counter into a new record value. -/
theorem fetchLiveVersion_selects_max_version (versions : List AppStoreVersion)
    (fetchBuildNumberForVersion : String → Except ApplicationError BuildNumber)
    (out : AppStoreVersion)
    (h : AppVersionService.fetchLiveVersion versions fetchBuildNumberForVersion = Except.ok out) :
    ∃ live bn, live ∈ versions ∧ live.state = AppStoreState.READY_FOR_SALE ∧
      (∀ v ∈ versions, v.state = AppStoreState.READY_FOR_SALE →
        v.version.compareTo live.version ≤ 0) ∧
      AppVersionService._fetchVersionBuildNumber fetchBuildNumberForVersion live =
        Except.ok bn ∧
      out = AppVersionService._createVersionWithBuildNumber live bn := by
  by_cases he : versions.isEmpty
  · rw [AppVersionService.fetchLiveVersion] at h
    rw [if_pos he] at h
    exact absurd h (by simp)
  · have he' : versions.isEmpty = false := by
      cases hc : versions.isEmpty with
      | false => rfl
      | true => exact absurd hc he
    cases hsort : sortBy versionDescLe
        (versions.filter (fun version => decide (version.state = AppStoreState.READY_FOR_SALE))) with
    | nil =>
      have hf : versions.filter
          (fun version => decide (version.state = AppStoreState.READY_FOR_SALE)) = [] := by
        cases hc : versions.filter
            (fun version => decide (version.state = AppStoreState.READY_FOR_SALE)) with
        | nil => rfl
        | cons x xs =>
          have hx : x ∈ sortBy versionDescLe
              (versions.filter
                (fun version => decide (version.state = AppStoreState.READY_FOR_SALE))) :=
            (mem_sortBy versionDescLe x _).mpr (by rw [hc]; exact List.mem_cons_self x xs)
          rw [hsort] at hx
          exact absurd hx (List.not_mem_nil x)
      rw [AppVersionService.fetchLiveVersion, if_neg (by rw [he']; simp)] at h
      simp only [hf] at h
      exact absurd h (by simp)
    | cons live rest =>
      rw [fetchLiveVersion_eq versions fetchBuildNumberForVersion live rest he' hsort] at h
      have hlivemem : live ∈ versions.filter
          (fun version => decide (version.state = AppStoreState.READY_FOR_SALE)) :=
        (mem_sortBy versionDescLe live _).mp (by rw [hsort]; exact List.mem_cons_self live rest)
      have hlive : live ∈ versions ∧ live.state = AppStoreState.READY_FOR_SALE := by
        have hm := List.mem_filter.mp hlivemem
        exact ⟨hm.1, of_decide_eq_true hm.2⟩
      have hmax : ∀ v ∈ versions, v.state = AppStoreState.READY_FOR_SALE →
          v.version.compareTo live.version ≤ 0 := by
        intro v hv hvstate
        have hvf : v ∈ versions.filter
            (fun version => decide (version.state = AppStoreState.READY_FOR_SALE)) :=
          List.mem_filter.mpr ⟨hv, decide_eq_true hvstate⟩
        have hle := sortBy_head_le versionDescLe versionDescLe_total versionDescLe_trans
          versionDescLe_refl _ live rest hsort v hvf
        simpa [versionDescLe] using hle
      cases hb : AppVersionService._fetchVersionBuildNumber fetchBuildNumberForVersion live with
      | error e =>
        rw [hb] at h
        exact absurd h (by simp)
      | ok bn =>
        rw [hb] at h
        have hout : out = AppVersionService._createVersionWithBuildNumber live bn :=
          (Except.ok.inj h).symm
        exact ⟨live, bn, hlive.1, hlive.2, hmax, hb, hout⟩

/-- C10 witness: with two ready-for-sale releases returned smaller-first,
the selected release is the one with the larger version, completed with
the resolved counter 7 into a fresh record. -/
theorem fetchLiveVersion_selects_max_version_witness :
    ∃ live bn, live ∈ demoVersionList ∧ live.state = AppStoreState.READY_FOR_SALE ∧
      (∀ v ∈ demoVersionList, v.state = AppStoreState.READY_FOR_SALE →
        v.version.compareTo live.version ≤ 0) ∧
      AppVersionService._fetchVersionBuildNumber demoFetchBuildSeven live = Except.ok bn ∧
      ({ id := "v-b"
         version := { major := 1, minor := 2, patch := 0 }
         buildNumber := { value := 7 }
         state := AppStoreState.READY_FOR_SALE
         platform := "IOS"
         createdDate := "2023-02-01" } : AppStoreVersion) =
        AppVersionService._createVersionWithBuildNumber live bn :=
  fetchLiveVersion_selects_max_version demoVersionList demoFetchBuildSeven _ (by rfl)
